import Mathlib

/-!
Shallow embedding of the shadow-git extension (src/src/shadow-git.ts) of the
pi-subagent-with-logging repository, and proofs about the spec claims.

Modelling conventions:
- JavaScript strings are Lean `String`; `path.join` is modelled as
  concatenation with a "/" separator (dot-segment normalization is not
  exercised by any code path under study); `path.isAbsolute` on a string is
  modelled as starting with "/" (posix), and on `undefined` it throws, which
  the embedding records as an `Except.error`.
- Each lifecycle event handler becomes a case of `step`, which returns
  `Except String St`: `.error` means a JavaScript exception escaped the
  handler to the host (an unhandled rejection), `.ok` means the handler
  returned normally.
- Results of subprocess (`pi.exec`) and filesystem calls are supplied by an
  `Env` oracle per event: exit codes of git init/add/commit/diff, the diff
  stdout, and success flags for writeFileSync / mkdirSync / appendFileSync.
  Every subprocess invocation increments the `execs` counter of the state so
  that "no subprocess was invoked" is expressible.
- Wall-clock timestamps (`Date.now()`) carry no information used by any
  claim and are omitted from the audit-entry model.
-/


/-- Decimal digit character, modelling the characters of JavaScript
number-to-string conversion. -/
def digitChar (d : Nat) : Char := Char.ofNat (48 + d)

/-- Little-endian decimal digits with explicit fuel (structural recursion
so that the kernel can evaluate it). -/
def natDigitsLEAux : Nat → Nat → List Char
  | 0, _ => []
  | fuel + 1, n => if n = 0 then [] else digitChar (n % 10) :: natDigitsLEAux fuel (n / 10)

/-- Little-endian decimal digits of a number (empty for 0). -/
def natDigitsLE (n : Nat) : List Char := natDigitsLEAux n n

/-- Little-endian decimal digits, with 0 rendered as the single digit 0. -/
def natDigitsLE0 (n : Nat) : List Char :=
  if n = 0 then [digitChar 0] else natDigitsLE n

/-- Model of JavaScript String(n) / template interpolation for a
non-negative integer. -/
def jsNumToString (n : Nat) : String := ⟨(natDigitsLE0 n).reverse⟩

/-- Model of JavaScript s.padStart(3, "0"). -/
def padStart3 (s : String) : String :=
  if s.length ≥ 3 then s else ⟨List.replicate (3 - s.length) '0' ++ s.data⟩

/-- Model of node posix path.join for the two-argument uses in the source:
concatenation with a separator. -/
def jsJoin (a b : String) : String := a ++ "/" ++ b

/-- Model of JavaScript s.trim(): strip whitespace from both ends
(character-level, so that it evaluates inside the kernel). -/
def jsTrim (s : String) : String :=
  ⟨((s.data.dropWhile Char.isWhitespace).reverse.dropWhile Char.isWhitespace).reverse⟩

/-- Accumulator for splitting a character list on the separator. -/
def splitOnSlashAux : List Char → List Char → List String
  | [], acc => [⟨acc.reverse⟩]
  | c :: cs, acc =>
    if c = '/' then ⟨acc.reverse⟩ :: splitOnSlashAux cs []
    else splitOnSlashAux cs (c :: acc)

/-- Model of JavaScript s.split("/"): always at least one element, empty
fields preserved. -/
def jsSplitOnSlash (s : String) : List String := splitOnSlashAux s.data []

/-- Model of JavaScript s.startsWith(pre) and of the string use of
path.isAbsolute (prefix test on characters). -/
def jsStartsWith (s pre : String) : Bool := pre.data.isPrefixOf s.data

/-- Model of node posix path.dirname, following the node algorithm: scan
from the right over indexes len-1 down to 1, skip trailing separators, stop
at the next separator; if none is found return "/" for rooted paths and "."
otherwise; a rooted path whose scan stops at index 1 yields "//". -/
def jsDirname (p : String) : String :=
  match p.data with
  | [] => "."
  | c0 :: body =>
    let hasRoot := c0 == '/'
    let rs := (body.reverse.dropWhile (fun c => c == '/')).dropWhile (fun c => c != '/')
    if rs.length = 0 then (if hasRoot then "/" else ".")
    else if hasRoot && rs.length == 1 then "//"
    else ⟨(c0 :: body).take rs.length⟩

/-- Last component produced by s.split("/").pop(), with "" for the empty
result (JavaScript pop on the split list never yields undefined here since
split always returns at least one element). -/
def splitPop (s : String) : String := ((jsSplitOnSlash s).getLast?).getD ""

/-- Modelled from the spec: the "last path segment" of a path, used to
compare the code's patch-subdirectory naming with the wording of the spec. -/
def lastSegment (p : String) : String := ((jsSplitOnSlash p).getLast?).getD ""

/-- Subdirectory name used for patches of a target repository, from
capturePatch: "target" for the "unknown" bucket, otherwise
dirname(targetRepo).split("/").pop() with fallback "repo". -/
def repoShortName (targetRepo : String) : String :=
  if targetRepo == "unknown" then "target"
  else
    let seg := splitPop (jsDirname targetRepo)
    if seg == "" then "repo" else seg

/-- Patch file name from capturePatch:
turn-(turn padded to 3)-(tool)-(sequence).patch. -/
def patchFileName (turn : Nat) (tool : String) (seq : Nat) : String :=
  "turn-" ++ padStart3 (jsNumToString turn) ++ "-" ++ tool ++ "-" ++
    jsNumToString seq ++ ".patch"

/-- Session configuration of one agent process (the Config record of the
source, with process.cwd() made explicit for relative-path resolution). -/
structure Config where
  workspaceRoot : String
  agentName : String
  targetRepos : List String
  targetBranch : Option String
  patchDir : String
  cwd : String
deriving Repr, DecidableEq

/-- Full path of a patch file as built in capturePatch. -/
def patchFilePath (cfg : Config) (targetRepo tool : String) (turn seq : Nat) : String :=
  jsJoin (jsJoin cfg.patchDir (repoShortName targetRepo)) (patchFileName turn tool seq)

/-- One audit log entry (timestamp omitted, event payload summarized in
info). -/
structure AuditEntry where
  event : String
  agent : String
  turn : Nat
  info : String
deriving Repr, DecidableEq

/-- Engine counters (the Stats record of the source). -/
structure Stats where
  commits : Nat
  commitErrors : Nat
  toolCalls : Nat
  turns : Nat
  patchesCaptured : Nat
deriving Repr, DecidableEq

/-- Mutable state of one agent process, together with the observable
histories: audit entries written, commits created in the agent checkpoint
repository, patch files written, and the number of subprocess invocations. -/
structure St where
  enabled : Bool
  currentTurn : Nat
  toolCallCount : Nat
  stats : Stats
  agentRepoInitialized : Bool
  audit : List AuditEntry
  commits : List String
  patches : List String
  execs : Nat
deriving Repr, DecidableEq

/-- Initial state at process start (enabled is the negation of the
kill-switch environment variable). -/
def St.init (enabled : Bool) : St :=
  { enabled := enabled, currentTurn := 0, toolCallCount := 0,
    stats := ⟨0, 0, 0, 0, 0⟩, agentRepoInitialized := false,
    audit := [], commits := [], patches := [], execs := 0 }

/-- Per-event environment oracle: outcomes of subprocess and filesystem
operations that the handlers may perform while handling one event. -/
structure Env where
  killswitch : Bool
  gitDirExists : Bool
  initCode : Nat
  gitignoreOk : Bool
  initCommitCode : Nat
  addCode : Nat
  commitCode : Nat
  mkdirOk : Bool
  diffCode : Nat
  diffOut : String
  patchWriteOk : Bool
  auditOk : Bool
deriving Repr, DecidableEq

/-- Record one subprocess invocation. -/
def execd (s : St) : St := { s with execs := s.execs + 1 }

/-- The emit function of the source: append one audit entry unless the
engine is disabled; an appendFileSync failure is caught and swallowed. -/
def emit (cfg : Config) (env : Env) (ev info : String) (s : St) : St :=
  if s.enabled then
    if env.auditOk then
      { s with audit := s.audit ++ [⟨ev, cfg.agentName, s.currentTurn, info⟩] }
    else s
  else s

/-- The initAgentRepo function: reuse an existing repository, otherwise git
init, write a .gitignore excluding audit.jsonl, stage it and make the
initial "agent initialized" commit (these two exec results are not
checked); any thrown failure is caught and reported as git_init_error. -/
def initAgentRepo (cfg : Config) (env : Env) (s : St) : St × Bool :=
  if env.gitDirExists then
    ({ s with agentRepoInitialized := true }, true)
  else
    let s1 := execd s
    if env.initCode ≠ 0 then
      (emit cfg env "git_init_error" "git init failed" s1, false)
    else if !env.gitignoreOk then
      (emit cfg env "git_init_error" "writeFileSync failed" s1, false)
    else
      let s2 := execd (execd s1)
      let s3 := if env.initCommitCode = 0
        then { s2 with commits := s2.commits ++ ["agent initialized"] }
        else s2
      let s4 := { s3 with agentRepoInitialized := true }
      (emit cfg env "git_init" cfg.agentName s4, true)

/-- The gitCommitInternal function: a silent successful no-op when the
repository is not initialized; otherwise stage all and commit (allowing
empty); on a nonzero exit of either subprocess the failure counter is
incremented, a commit_error entry is emitted and false is returned. -/
def gitCommitInternal (cfg : Config) (env : Env) (message : String) (s : St) : St × Bool :=
  if !s.agentRepoInitialized then (s, true)
  else
    let s1 := execd s
    if env.addCode ≠ 0 then
      let s2 := { s1 with stats := { s1.stats with commitErrors := s1.stats.commitErrors + 1 } }
      (emit cfg env "commit_error" (message ++ ": git add failed") s2, false)
    else
      let fullMessage := match cfg.targetBranch with
        | some b => message ++ " [target: " ++ b ++ "]"
        | none => message
      let s2 := execd s1
      if env.commitCode ≠ 0 then
        let s3 := { s2 with stats := { s2.stats with commitErrors := s2.stats.commitErrors + 1 } }
        (emit cfg env "commit_error" (message ++ ": git commit failed") s3, false)
      else
        ({ s2 with commits := s2.commits ++ [fullMessage],
                   stats := { s2.stats with commits := s2.stats.commits + 1 } }, true)

/-- The gitCommit wrapper: a successful no-op when disabled. -/
def gitCommit (cfg : Config) (env : Env) (message : String) (s : St) : St × Bool :=
  if !s.enabled then (s, true) else gitCommitInternal cfg env message s

/-- Absolute form of a path as computed in the source: keep absolute paths,
join relative ones onto the working directory. -/
def resolveAbs (cwd p : String) : String :=
  if jsStartsWith p "/" then p else jsJoin cwd p

/-- The isTargetRepoPath function applied to a string path: inside the
workspace yields none; the first configured target repository whose
absolute form prefixes the path yields that repository; with no configured
repositories any outside path yields "unknown"; otherwise none. -/
def isTargetRepoPathStr (cfg : Config) (filePath : String) : Option String :=
  let absPath := resolveAbs cfg.cwd filePath
  if jsStartsWith absPath cfg.workspaceRoot then none
  else
    match cfg.targetRepos.find? (fun repo => jsStartsWith absPath (resolveAbs cfg.cwd repo)) with
    | some repo => some repo
    | none =>
      if cfg.targetRepos.length == 0 && !(jsStartsWith absPath cfg.workspaceRoot) then
        some "unknown"
      else none

/-- The isTargetRepoPath function on a possibly-missing path: a missing
path reaches path.isAbsolute(undefined), which throws a TypeError. -/
def isTargetRepoPath (cfg : Config) : Option String → Except String (Option String)
  | none => .error "TypeError: the path argument must be of type string"
  | some p => .ok (isTargetRepoPathStr cfg p)

/-- The capturePatch function: when enabled, create the per-repository
subdirectory, run git diff HEAD scoped to the file, and when the diff
succeeds with non-blank output write exactly one patch file and emit
patch_captured; filesystem failures are caught and reported as
patch_error. -/
def capturePatch (cfg : Config) (env : Env) (targetRepo filePath toolName : String)
    (s : St) : St :=
  if !s.enabled then s
  else
    if !env.mkdirOk then emit cfg env "patch_error" (filePath ++ ": mkdir failed") s
    else
      let patchFile := patchFilePath cfg targetRepo toolName s.currentTurn s.toolCallCount
      let s1 := execd s
      if env.diffCode == 0 && jsTrim env.diffOut != "" then
        if env.patchWriteOk then
          let s2 := { s1 with
            patches := s1.patches ++ [patchFile],
            stats := { s1.stats with patchesCaptured := s1.stats.patchesCaptured + 1 } }
          emit cfg env "patch_captured" patchFile s2
        else
          emit cfg env "patch_error" (filePath ++ ": write failed") s1
      else s1

/-- The setEnabled control action of the command surface: flip the flag,
then emit the enabled/disabled audit entry. -/
def setEnabled (cfg : Config) (env : Env) (b : Bool) (s : St) : St :=
  let s1 := { s with enabled := b }
  emit cfg env (if b then "enabled" else "disabled") "" s1

/-- Lifecycle events delivered by the host, plus the runtime
enable/disable control command. A tool result carries the (possibly
missing) path field of its input. -/
inductive Event where
  | session_start
  | session_shutdown
  | agent_end (messageCount : Nat)
  | turn_start (turnIndex : Nat)
  | turn_end (turnIndex : Nat) (toolResultCount : Nat)
  | tool_call (toolName : String) (toolCallId : String)
  | tool_result (toolName : String) (toolCallId : String) (path : Option String) (isError : Bool)
  | cmdSetEnabled (b : Bool)
deriving Repr, DecidableEq

/-- One event handler dispatch. An `.error` result is a JavaScript
exception escaping the handler to the host (an unhandled rejection). -/
def step (cfg : Config) (env : Env) (s : St) : Event → Except String St
  | .session_start =>
    let s0 := if env.killswitch then { s with enabled := false } else s
    if !s0.enabled then .ok s0
    else
      let r := initAgentRepo cfg env s0
      let s2 := emit cfg env "session_start" "" r.1
      let r2 := gitCommit cfg env ("[" ++ cfg.agentName ++ ":start] session began") s2
      .ok r2.1
  | .session_shutdown =>
    if !s.enabled then .ok s else .ok (emit cfg env "session_shutdown" "stats" s)
  | .agent_end msgCount =>
    if !s.enabled then .ok s
    else .ok (emit cfg env "agent_end" (jsNumToString msgCount) s)
  | .turn_start i =>
    let s1 := { s with currentTurn := i, stats := { s.stats with turns := s.stats.turns + 1 } }
    if !s1.enabled then .ok s1
    else .ok (emit cfg env "turn_start" (jsNumToString i) s1)
  | .turn_end i toolCount =>
    if !s.enabled then .ok s
    else
      let s1 := emit cfg env "turn_end" (jsNumToString toolCount) s
      let summary := if toolCount > 0 then jsNumToString toolCount ++ " tools" else "no tools"
      let r := gitCommit cfg env
        ("[" ++ cfg.agentName ++ ":turn-" ++ jsNumToString i ++ "] " ++ summary) s1
      .ok r.1
  | .tool_call toolName _ =>
    let s1 := { s with toolCallCount := s.toolCallCount + 1,
                       stats := { s.stats with toolCalls := s.stats.toolCalls + 1 } }
    if !s1.enabled then .ok s1
    else .ok (emit cfg env "tool_call" toolName s1)
  | .tool_result toolName _ path _ =>
    if !s.enabled then .ok s
    else
      let s1 := emit cfg env "tool_result" toolName s
      if toolName == "write" || toolName == "edit" then
        match path with
        | none => .error "TypeError: the path argument must be of type string"
        | some p =>
          match isTargetRepoPathStr cfg p with
          | some repo => .ok (capturePatch cfg env repo p toolName s1)
          | none => .ok s1
      else .ok s1
  | .cmdSetEnabled b => .ok (setEnabled cfg env b s)

/-- Run a list of events, each with its environment oracle, threading the
state; stop at the first handler that lets an exception escape. -/
def run (cfg : Config) : St → List (Event × Env) → Except String St
  | s, [] => .ok s
  | s, (e, env) :: rest =>
    match step cfg env s e with
    | .error msg => .error msg
    | .ok s1 => run cfg s1 rest

/-- Sample configuration of an agent process. -/
def cfgEx : Config :=
  { workspaceRoot := "/ws", agentName := "a1", targetRepos := ["/repos/proj"],
    targetBranch := none, patchDir := "/ws/target-patches", cwd := "/ws" }

/-- Environment oracle in which every operation succeeds. -/
def envOk : Env :=
  { killswitch := false, gitDirExists := false, initCode := 0, gitignoreOk := true,
    initCommitCode := 0, addCode := 0, commitCode := 0, mkdirOk := true,
    diffCode := 0, diffOut := "diff --git a/f.c b/f.c", patchWriteOk := true,
    auditOk := true }

/-- Value of a little-endian decimal digit list. -/
def valLE : List Char → Nat
  | [] => 0
  | c :: cs => (c.toNat - 48) + 10 * valLE cs

/-- Live state fixture: enabled, repository initialized, at turn 1 with one
tool call seen. -/
def stW : St :=
  { St.init true with agentRepoInitialized := true, currentTurn := 1, toolCallCount := 1 }

/-- Environment oracle in which the git commit subprocess fails. -/
def envCommitFail : Env := { envOk with commitCode := 1 }

/-- Classification outcomes as named in the specification. -/
inductive Classification where
  | workspaceInternal
  | externalRepo (id : String)
  | externalUnknown
deriving Repr, DecidableEq

/-- Classifier following the amended claim: the same four-case structure,
but with containment read the way the code computes it — a raw character
prefix test on the resolved absolute form, with no requirement that the
prefix end at a path-component boundary. -/
def classifyPrefix (cfg : Config) (p : String) : Classification :=
  let absPath := resolveAbs cfg.cwd p
  if jsStartsWith absPath cfg.workspaceRoot then .workspaceInternal
  else
    match cfg.targetRepos.find? (fun r => jsStartsWith absPath (resolveAbs cfg.cwd r)) with
    | some r => .externalRepo r
    | none => if cfg.targetRepos.isEmpty then .externalUnknown else .workspaceInternal

/-- Modelled from the spec: a path lies under a directory when it equals
the directory or continues it at a path-component boundary (directory
followed by a separator) — the ordinary filesystem reading of "lies under
the workspace root" and "membership against each configured
target-repository path". -/
def liesUnder (abs root : String) : Bool :=
  abs == root || jsStartsWith abs (root ++ "/")

/-- Modelled from the spec: the classification algorithm as worded —
resolve to absolute form; a path lying under the workspace root is
internal; otherwise the first configured target repository the path lies
under identifies it; otherwise, with no configured target repositories at
all, unknown external; otherwise internal. -/
def classifySpec (cfg : Config) (p : String) : Classification :=
  let absPath := resolveAbs cfg.cwd p
  if liesUnder absPath cfg.workspaceRoot then .workspaceInternal
  else
    match cfg.targetRepos.find? (fun r => liesUnder absPath (resolveAbs cfg.cwd r)) with
    | some r => .externalRepo r
    | none => if cfg.targetRepos.isEmpty then .externalUnknown else .workspaceInternal

/-- Configuration with no target repositories declared, for the
classification counterexample. -/
def cfgC6 : Config := { cfgEx with targetRepos := [] }

/-- Map a classification to the return value of the source function (null
for internal, the repository path for a configured match, the "unknown"
marker for the unconfigured external bucket). -/
def Classification.toResult : Classification → Option String
  | .workspaceInternal => none
  | .externalRepo r => some r
  | .externalUnknown => some "unknown"

/-- Two agent processes sharing one workspace and patch directory,
differing only in agent name. -/
def cfgA : Config :=
  { workspaceRoot := "/ws", agentName := "alpha", targetRepos := ["/repos/proj"],
    targetBranch := none, patchDir := "/ws/target-patches", cwd := "/ws" }

/-- Second process of the pair. -/
def cfgB : Config := { cfgA with agentName := "beta" }

/-- State of each process at turn 1 after its first tool call of the
session has not yet happened. -/
def stC3 : St := { St.init true with currentTurn := 1, agentRepoInitialized := true }

/-- One write tool call and its result touching the shared target
repository. -/
def trC3 : List (Event × Env) :=
  [(Event.tool_call "write" "t1", envOk),
   (Event.tool_result "write" "t1" (some "/repos/proj/f.c") false, envOk)]

/-- Patches written by a finished run (empty when the run rejected). -/
def patchesOf : Except String St → List String
  | .ok s => s.patches
  | .error _ => []

/-- Host lifecycle events, as opposed to the operator control command. -/
def isLifecycle : Event → Bool
  | .cmdSetEnabled _ => false
  | _ => true

/-- Turn-end events (the only commit points after session start). -/
def isTurnEndEvt : Event → Bool
  | .turn_end _ _ => true
  | _ => false

/-- Mid-session events considered by the commit-count claim: any lifecycle
event other than session start, where a turn end finds healthy git
subprocesses and a write/edit tool result carries a path. -/
def midOk : Event × Env → Bool
  | (.session_start, _) => false
  | (.cmdSetEnabled _, _) => false
  | (.turn_end _ _, env) => env.addCode == 0 && env.commitCode == 0
  | (.tool_result toolName _ path _, _) =>
      !((toolName == "write" || toolName == "edit") && path.isNone)
  | _ => true

/-- Number of turn-end events in a trace. -/
def countTurnEnds (tr : List (Event × Env)) : Nat :=
  (tr.filter (fun x => isTurnEndEvt x.1)).length

/-- Concrete two-turn trace with three tool calls, one of them an
external-repository write. -/
def trC1 : List (Event × Env) :=
  [(Event.turn_start 1, envOk),
   (Event.tool_call "bash" "c1", envOk),
   (Event.tool_result "bash" "c1" none false, envOk),
   (Event.tool_call "write" "c2", envOk),
   (Event.tool_result "write" "c2" (some "/repos/proj/f.c") false, envOk),
   (Event.turn_end 1 2, envOk),
   (Event.turn_start 2, envOk),
   (Event.turn_end 2 0, envOk)]

@[simp] theorem emit_enabled (cfg : Config) (env : Env) (ev info : String) (s : St) :
    (emit cfg env ev info s).enabled = s.enabled := by
  unfold emit; split
  · split <;> rfl
  · rfl

@[simp] theorem emit_commits (cfg : Config) (env : Env) (ev info : String) (s : St) :
    (emit cfg env ev info s).commits = s.commits := by
  unfold emit; split
  · split <;> rfl
  · rfl

@[simp] theorem emit_agentRepoInitialized (cfg : Config) (env : Env) (ev info : String) (s : St) :
    (emit cfg env ev info s).agentRepoInitialized = s.agentRepoInitialized := by
  unfold emit; split
  · split <;> rfl
  · rfl

@[simp] theorem emit_patches (cfg : Config) (env : Env) (ev info : String) (s : St) :
    (emit cfg env ev info s).patches = s.patches := by
  unfold emit; split
  · split <;> rfl
  · rfl

@[simp] theorem emit_stats (cfg : Config) (env : Env) (ev info : String) (s : St) :
    (emit cfg env ev info s).stats = s.stats := by
  unfold emit; split
  · split <;> rfl
  · rfl

@[simp] theorem emit_currentTurn (cfg : Config) (env : Env) (ev info : String) (s : St) :
    (emit cfg env ev info s).currentTurn = s.currentTurn := by
  unfold emit; split
  · split <;> rfl
  · rfl

@[simp] theorem emit_toolCallCount (cfg : Config) (env : Env) (ev info : String) (s : St) :
    (emit cfg env ev info s).toolCallCount = s.toolCallCount := by
  unfold emit; split
  · split <;> rfl
  · rfl

@[simp] theorem emit_execs (cfg : Config) (env : Env) (ev info : String) (s : St) :
    (emit cfg env ev info s).execs = s.execs := by
  unfold emit; split
  · split <;> rfl
  · rfl

@[simp] theorem St.init_enabled (b : Bool) : (St.init b).enabled = b := rfl

theorem emit_audit_on (cfg : Config) (env : Env) (ev info : String) (s : St)
    (hs : s.enabled = true) (ha : env.auditOk = true) :
    (emit cfg env ev info s).audit =
      s.audit ++ [⟨ev, cfg.agentName, s.currentTurn, info⟩] := by
  simp [emit, hs, ha]

theorem emit_audit_off (cfg : Config) (env : Env) (ev info : String) (s : St)
    (hs : s.enabled = false) :
    (emit cfg env ev info s).audit = s.audit := by
  simp [emit, hs]

/-- C2: the tool-result handler for a write whose input is missing the path
field lets the TypeError thrown by path.isAbsolute(undefined) escape to the
host event loop: the handler rejects instead of returning normally, so the
universal no-unhandled-failure claim fails on this event. -/
theorem C2_write_missing_path_rejects :
    step cfgEx envOk { St.init true with agentRepoInitialized := true }
      (Event.tool_result "write" "call-1" none false) =
      Except.error "TypeError: the path argument must be of type string" := by
  rfl

/-- C4: issuing the runtime disable command while the engine is enabled
does flip the control flag, but because the flag is cleared before the
audit emit runs, the emit suppresses itself: even with a healthy audit
channel no disabled entry is written, so the disable event is not the last
line written (nothing is written at all). -/
theorem C4_disable_writes_no_entry (cfg : Config) (env : Env) (s : St)
    (hs : s.enabled = true) (ha : env.auditOk = true) :
    ∃ s1, step cfg env s (Event.cmdSetEnabled false) = Except.ok s1 ∧
      s1.enabled = false ∧ s1.audit = s.audit := by
  refine ⟨setEnabled cfg env false s, rfl, ?_, ?_⟩
  · simp [setEnabled, emit]
  · simp [setEnabled, emit]

/-- C4 witness: the disable command from the freshly enabled initial state
leaves the audit log empty. -/
theorem C4_disable_writes_no_entry_witness :
    ∃ s1, step cfgEx envOk (St.init true) (Event.cmdSetEnabled false) = Except.ok s1 ∧
      s1.enabled = false ∧ s1.audit = (St.init true).audit :=
  C4_disable_writes_no_entry cfgEx envOk (St.init true) (by decide) (by decide)

theorem digitChar_toNat : ∀ d, d < 10 → (digitChar d).toNat = 48 + d := by
  unfold digitChar; decide

theorem valLE_natDigitsLEAux : ∀ (fuel n : Nat), n ≤ fuel → valLE (natDigitsLEAux fuel n) = n := by
  intro fuel
  induction fuel with
  | zero =>
    intro n h
    have hz : n = 0 := Nat.le_zero.mp h
    subst hz
    simp [natDigitsLEAux, valLE]
  | succ f ih =>
    intro n h
    by_cases hz : n = 0
    · simp [natDigitsLEAux, hz, valLE]
    · rw [natDigitsLEAux]
      simp only [hz, if_false]
      rw [valLE]
      rw [ih (n / 10) ?hle]
      case hle =>
        have hlt : n / 10 < n := Nat.div_lt_self (Nat.pos_of_ne_zero hz) (by decide)
        omega
      rw [digitChar_toNat _ (Nat.mod_lt _ (by decide))]
      omega

theorem valLE_natDigitsLE : ∀ n, valLE (natDigitsLE n) = n := fun n =>
  valLE_natDigitsLEAux n n (Nat.le_refl n)

theorem valLE_natDigitsLE0 (n : Nat) : valLE (natDigitsLE0 n) = n := by
  unfold natDigitsLE0
  split
  · rename_i h
    rw [h]
    simp [valLE, digitChar_toNat 0 (by decide)]
  · exact valLE_natDigitsLE n

theorem jsNumToString_data_inj {m n : Nat}
    (h : (jsNumToString m).data = (jsNumToString n).data) : m = n := by
  have hrev : (natDigitsLE0 m).reverse = (natDigitsLE0 n).reverse := h
  have hdig : natDigitsLE0 m = natDigitsLE0 n := List.reverse_injective hrev
  have := congrArg valLE hdig
  rwa [valLE_natDigitsLE0, valLE_natDigitsLE0] at this

/-- C9: when checkpoint-repository creation fails (fresh directory, git
init exits nonzero), a git_init_error audit entry is emitted, the manager
stays uninitialized, no commit is created, and every commit attempt in an
uninitialized state returns success while leaving the whole state — audit
log, commit list, counters, and subprocess count — unchanged. -/
theorem C9_init_failure_noop_commits (cfg : Config) (env : Env) (s : St)
    (hs : s.enabled = true) (ha : env.auditOk = true)
    (hninit : s.agentRepoInitialized = false)
    (hdir : env.gitDirExists = false) (hfail : env.initCode ≠ 0) :
    ((initAgentRepo cfg env s).2 = false ∧
     (initAgentRepo cfg env s).1.agentRepoInitialized = false ∧
     (initAgentRepo cfg env s).1.audit =
       s.audit ++ [⟨"git_init_error", cfg.agentName, s.currentTurn, "git init failed"⟩] ∧
     (initAgentRepo cfg env s).1.commits = s.commits) ∧
    (∀ (s2 : St) (env2 : Env) (msg : String), s2.agentRepoInitialized = false →
      gitCommitInternal cfg env2 msg s2 = (s2, true)) := by
  constructor
  · refine ⟨?_, ?_, ?_, ?_⟩ <;>
      simp [initAgentRepo, hdir, hfail, emit_audit_on, execd, hs, ha, emit, hninit]
  · intro s2 env2 msg h2
    simp [gitCommitInternal, h2]

/-- C9 witness: concrete failing initialization followed by a commit
attempt that is a silent no-op. -/
theorem C9_init_failure_noop_commits_witness :
    ((initAgentRepo cfgEx { envOk with initCode := 128 } (St.init true)).2 = false ∧
     (initAgentRepo cfgEx { envOk with initCode := 128 } (St.init true)).1.agentRepoInitialized = false ∧
     (initAgentRepo cfgEx { envOk with initCode := 128 } (St.init true)).1.audit =
       (St.init true).audit ++
         [⟨"git_init_error", cfgEx.agentName, (St.init true).currentTurn, "git init failed"⟩] ∧
     (initAgentRepo cfgEx { envOk with initCode := 128 } (St.init true)).1.commits =
       (St.init true).commits) ∧
    (∀ (s2 : St) (env2 : Env) (msg : String), s2.agentRepoInitialized = false →
      gitCommitInternal cfgEx env2 msg s2 = (s2, true)) :=
  C9_init_failure_noop_commits cfgEx { envOk with initCode := 128 } (St.init true)
    (by decide) (by decide) (by decide) (by decide) (by decide)

/-- C8: when staging or committing exits nonzero, the commit operation
increments the failure counter by exactly one, emits exactly one
commit_error entry carrying the failure detail, creates no commit and
returns failure; and the turn-end handler that triggered it still returns
normally, with the same counter increment and the commit_error entry
appended after its turn_end entry. -/
theorem C8_commit_failure (cfg : Config) (env : Env) (s : St) (i n : Nat)
    (hs : s.enabled = true) (hinit : s.agentRepoInitialized = true)
    (ha : env.auditOk = true) (hfail : env.addCode ≠ 0 ∨ env.commitCode ≠ 0) :
    (∀ msg : String, ∃ info,
      (gitCommitInternal cfg env msg s).2 = false ∧
      (gitCommitInternal cfg env msg s).1.stats.commitErrors = s.stats.commitErrors + 1 ∧
      (gitCommitInternal cfg env msg s).1.stats.commits = s.stats.commits ∧
      (gitCommitInternal cfg env msg s).1.commits = s.commits ∧
      (gitCommitInternal cfg env msg s).1.audit =
        s.audit ++ [⟨"commit_error", cfg.agentName, s.currentTurn, info⟩]) ∧
    (∃ s2 info, step cfg env s (Event.turn_end i n) = Except.ok s2 ∧
      s2.stats.commitErrors = s.stats.commitErrors + 1 ∧
      s2.commits = s.commits ∧
      s2.audit = s.audit ++
        [⟨"turn_end", cfg.agentName, s.currentTurn, jsNumToString n⟩,
         ⟨"commit_error", cfg.agentName, s.currentTurn, info⟩]) := by
  have hcore : ∀ (msg : String) (s0 : St), s0.enabled = true →
      s0.agentRepoInitialized = true → s0.currentTurn = s.currentTurn → ∃ info,
      (gitCommitInternal cfg env msg s0).2 = false ∧
      (gitCommitInternal cfg env msg s0).1.stats.commitErrors = s0.stats.commitErrors + 1 ∧
      (gitCommitInternal cfg env msg s0).1.stats.commits = s0.stats.commits ∧
      (gitCommitInternal cfg env msg s0).1.commits = s0.commits ∧
      (gitCommitInternal cfg env msg s0).1.audit =
        s0.audit ++ [⟨"commit_error", cfg.agentName, s.currentTurn, info⟩] := by
    intro msg s0 hs0 hinit0 hturn
    by_cases haddz : env.addCode = 0
    · have hcz : env.commitCode ≠ 0 := by
        rcases hfail with h | h
        · exact absurd haddz h
        · exact h
      refine ⟨msg ++ ": git commit failed", ?_, ?_, ?_, ?_, ?_⟩ <;>
        simp [gitCommitInternal, hinit0, haddz, hcz, execd, emit, hs0, ha, hturn]
    · refine ⟨msg ++ ": git add failed", ?_, ?_, ?_, ?_, ?_⟩ <;>
        simp [gitCommitInternal, hinit0, haddz, execd, emit, hs0, ha, hturn]
  constructor
  · intro msg
    exact hcore msg s hs hinit rfl
  · have hs1 : (emit cfg env "turn_end" (jsNumToString n) s).enabled = true := by
      simp [hs]
    have hinit1 : (emit cfg env "turn_end" (jsNumToString n) s).agentRepoInitialized = true := by
      simp [hinit]
    have hturn1 : (emit cfg env "turn_end" (jsNumToString n) s).currentTurn = s.currentTurn := by
      simp
    obtain ⟨info, h1, h2, h3, h4, h5⟩ :=
      hcore ("[" ++ cfg.agentName ++ ":turn-" ++ jsNumToString i ++ "] " ++
        (if n > 0 then jsNumToString n ++ " tools" else "no tools"))
        (emit cfg env "turn_end" (jsNumToString n) s) hs1 hinit1 hturn1
    refine ⟨(gitCommitInternal cfg env
        ("[" ++ cfg.agentName ++ ":turn-" ++ jsNumToString i ++ "] " ++
          (if n > 0 then jsNumToString n ++ " tools" else "no tools"))
        (emit cfg env "turn_end" (jsNumToString n) s)).1, info, ?_, ?_, ?_, ?_⟩
    · simp only [step, hs, Bool.not_true, Bool.false_eq_true, if_false, gitCommit, hs1]
    · rw [h2]; simp
    · rw [h4]; simp
    · rw [h5, emit_audit_on cfg env _ _ s hs ha]
      simp

/-- C8 witness: a concrete turn-end with a failing commit subprocess. -/
theorem C8_commit_failure_witness :
    ∃ s2 info, step cfgEx envCommitFail stW (Event.turn_end 1 2) = Except.ok s2 ∧
      s2.stats.commitErrors = stW.stats.commitErrors + 1 ∧
      s2.commits = stW.commits ∧
      s2.audit = stW.audit ++
        [⟨"turn_end", cfgEx.agentName, stW.currentTurn, jsNumToString 2⟩,
         ⟨"commit_error", cfgEx.agentName, stW.currentTurn, info⟩] :=
  (C8_commit_failure cfgEx envCommitFail stW 1 2 (by decide) (by decide) (by decide)
    (Or.inr (by decide))).2

/-- C7: for a classified external edit handled with the engine enabled and
a healthy filesystem, a diff subprocess that succeeds with non-blank output
yields exactly one new patch file, named
turn-(3-digit turn)-(tool)-(sequence).patch under the per-repository
subdirectory of the patch directory, and increments the captured counter;
an empty (blank) or failing diff yields no patch file. -/
theorem C7_capture_patch_file (cfg : Config) (env : Env) (s : St) (repo p tool : String)
    (hs : s.enabled = true) (hm : env.mkdirOk = true) (hw : env.patchWriteOk = true) :
    ((env.diffCode = 0 ∧ jsTrim env.diffOut ≠ "") →
      (capturePatch cfg env repo p tool s).patches =
        s.patches ++ [jsJoin (jsJoin cfg.patchDir (repoShortName repo))
          ("turn-" ++ padStart3 (jsNumToString s.currentTurn) ++ "-" ++ tool ++ "-" ++
            jsNumToString s.toolCallCount ++ ".patch")] ∧
      (capturePatch cfg env repo p tool s).stats.patchesCaptured =
        s.stats.patchesCaptured + 1) ∧
    ((env.diffCode ≠ 0 ∨ jsTrim env.diffOut = "") →
      (capturePatch cfg env repo p tool s).patches = s.patches) := by
  constructor
  · rintro ⟨h1, h2⟩
    constructor <;>
      simp [capturePatch, hs, hm, hw, h1, h2, execd, patchFilePath, patchFileName, jsJoin]
  · intro h
    rcases h with h | h <;>
      simp [capturePatch, hs, hm, execd, h]

/-- C7 witness: a concrete capture in a healthy environment produces the
single expected patch file. -/
theorem C7_capture_patch_file_witness :
    (capturePatch cfgEx envOk "/repos/proj" "/repos/proj/f.c" "write" stW).patches =
      stW.patches ++ [jsJoin (jsJoin cfgEx.patchDir (repoShortName "/repos/proj"))
        ("turn-" ++ padStart3 (jsNumToString stW.currentTurn) ++ "-" ++ "write" ++ "-" ++
          jsNumToString stW.toolCallCount ++ ".patch")] :=
  ((C7_capture_patch_file cfgEx envOk stW "/repos/proj" "/repos/proj/f.c" "write"
      (by decide) (by decide) (by decide)).1 ⟨by decide, by decide⟩).1

/-- C6 counterexample: the source classifier tests containment as a raw
string prefix, not the lies-under relation the claim states. With
workspace root /ws and no target repositories configured, /wsb/f.c does
not lie under /ws, so the claim says unknown external (capture occurs),
yet the code classifies it internal (no capture); with /repos/proj
configured, /repos/proj-other/f.c lies under no configured repository,
yet the code attributes it to /repos/proj. -/
theorem C6_counterexample_prefix_not_containment :
    (isTargetRepoPathStr cfgC6 "/wsb/f.c" = none ∧
     (classifySpec cfgC6 "/wsb/f.c").toResult = some "unknown" ∧
     isTargetRepoPathStr cfgC6 "/wsb/f.c" ≠ (classifySpec cfgC6 "/wsb/f.c").toResult) ∧
    (isTargetRepoPathStr cfgEx "/repos/proj-other/f.c" = some "/repos/proj" ∧
     (classifySpec cfgEx "/repos/proj-other/f.c").toResult = none ∧
     isTargetRepoPathStr cfgEx "/repos/proj-other/f.c" ≠
       (classifySpec cfgEx "/repos/proj-other/f.c").toResult) := by
  refine ⟨⟨by decide, by decide, by decide⟩, ⟨by decide, by decide, by decide⟩⟩

/-- C6 amended: the path classifier of the source agrees, on every
configuration and every string path, with the four-case classification of
the amended claim, in which containment is the raw string-prefix test on
the resolved absolute form: internal when the workspace root is a prefix,
first configured repository whose path is a prefix otherwise, the unknown
external bucket when no repositories are configured, internal otherwise. -/
theorem C6_amended_prefix_classifier (cfg : Config) (p : String) :
    isTargetRepoPathStr cfg p = (classifyPrefix cfg p).toResult := by
  unfold isTargetRepoPathStr classifyPrefix
  by_cases hsw : jsStartsWith (resolveAbs cfg.cwd p) cfg.workspaceRoot = true
  · simp [hsw, Classification.toResult]
  · cases hfind : cfg.targetRepos.find?
        (fun r => jsStartsWith (resolveAbs cfg.cwd p) (resolveAbs cfg.cwd r)) with
    | some r => simp [hfind, hsw, Classification.toResult]
    | none =>
      cases hrep : cfg.targetRepos with
      | nil => simp [hfind, hrep, hsw, Classification.toResult]
      | cons a as =>
        rw [hrep] at hfind
        simp [hfind, hrep, hsw, Classification.toResult]

/-- C10: the patch subdirectory for a configured target repository is
named by the last path segment of the parent directory of the repository
path (with fallback "repo" when that segment is empty), not by the
repository basename, so two configured repositories sharing a parent
directory are filed under one subdirectory; the unknown bucket is filed
under "target". -/
theorem C10_patch_subdir_naming :
    (∀ r1 r2 : String, r1 ≠ "unknown" → r2 ≠ "unknown" →
      jsDirname r1 = jsDirname r2 → repoShortName r1 = repoShortName r2) ∧
    repoShortName "unknown" = "target" ∧
    (∀ r : String, r ≠ "unknown" →
      repoShortName r =
        (if lastSegment (jsDirname r) = "" then "repo" else lastSegment (jsDirname r))) ∧
    (repoShortName "/home/work/projA" = "work" ∧
     repoShortName "/home/work/projB" = "work" ∧
     lastSegment "/home/work/projA" = "projA" ∧
     repoShortName "/home/work/projA" ≠ lastSegment "/home/work/projA") := by
  refine ⟨?_, by decide, ?_, by decide, by decide, by decide, by decide⟩
  · intro r1 r2 h1 h2 hdir
    simp only [repoShortName, beq_iff_eq, h1, h2, if_false, hdir]
  · intro r h
    simp only [repoShortName, splitPop, lastSegment, beq_iff_eq, h, if_false]

/-- C10 witness: two concrete repositories sharing a parent directory are
filed under the same subdirectory. -/
theorem C10_patch_subdir_naming_witness :
    repoShortName "/data/parent/alpha" = repoShortName "/data/parent/beta" :=
  C10_patch_subdir_naming.1 "/data/parent/alpha" "/data/parent/beta"
    (by decide) (by decide) (by decide)

theorem data_append (a b : String) : (a ++ b).data = a.data ++ b.data := rfl

/-- C3 counterexample: two distinct agent processes (different agent
names), sharing one patch directory and both at turn 1 with sequence
counter 1, capture a patch for the same target repository and produce the
same patch file path — the generated names carry no per-process component,
so concurrent writers do collide. -/
theorem C3_counterexample_cross_process_collision :
    cfgA.agentName ≠ cfgB.agentName ∧
    cfgA.patchDir = cfgB.patchDir ∧
    patchesOf (run cfgA stC3 trC3) = ["/ws/target-patches/repos/turn-001-write-1.patch"] ∧
    patchesOf (run cfgB stC3 trC3) = ["/ws/target-patches/repos/turn-001-write-1.patch"] := by
  refine ⟨by decide, by decide, by decide, by decide⟩

/-- C3 amended: within one agent process the per-process sequence counter
does make patch file paths distinct — captures at different sequence
counter values never share a path (the decimal rendering of the counter is
injective and the rest of the name is fixed); the cross-process part of
the original claim is false, as the counterexample shows. -/
theorem C3_amended_same_process_distinct (cfg : Config) (repo tool : String)
    (turn seq1 seq2 : Nat) (h : seq1 ≠ seq2) :
    patchFilePath cfg repo tool turn seq1 ≠ patchFilePath cfg repo tool turn seq2 := by
  intro hEq
  apply h
  apply jsNumToString_data_inj
  have hd := congrArg String.data hEq
  simp only [patchFilePath, jsJoin, patchFileName, data_append, List.append_assoc,
    List.append_cancel_left_eq] at hd
  exact List.append_cancel_right hd

/-- C3 amended witness: two concrete sequence numbers of one process give
distinct patch paths. -/
theorem C3_amended_same_process_distinct_witness :
    patchFilePath cfgA "/repos/proj" "write" 1 1 ≠ patchFilePath cfgA "/repos/proj" "write" 1 2 :=
  C3_amended_same_process_distinct cfgA "/repos/proj" "write" 1 1 2 (by decide)

/-- Projections of a successful staging-and-commit: success flag, one new
commit, and every other observable unchanged. -/
theorem gitCommitInternal_ok (cfg : Config) (env : Env) (msg : String) (s : St)
    (hinit : s.agentRepoInitialized = true)
    (hac : env.addCode = 0) (hcc : env.commitCode = 0) :
    (gitCommitInternal cfg env msg s).2 = true ∧
    (gitCommitInternal cfg env msg s).1.commits.length = s.commits.length + 1 ∧
    (gitCommitInternal cfg env msg s).1.audit = s.audit ∧
    (gitCommitInternal cfg env msg s).1.enabled = s.enabled ∧
    (gitCommitInternal cfg env msg s).1.agentRepoInitialized = s.agentRepoInitialized ∧
    (gitCommitInternal cfg env msg s).1.patches = s.patches := by
  cases hb : cfg.targetBranch <;>
    simp [gitCommitInternal, hinit, hac, hcc, execd, hb]

/-- Projections of a successful turn-end step: exactly one new commit, the
turn_end audit entry, flags preserved. -/
theorem step_turn_end_ok (cfg : Config) (env : Env) (s : St) (i n : Nat)
    (hs : s.enabled = true) (hinit : s.agentRepoInitialized = true)
    (hac : env.addCode = 0) (hcc : env.commitCode = 0) :
    ∃ s3, step cfg env s (Event.turn_end i n) = Except.ok s3 ∧
      s3.commits.length = s.commits.length + 1 ∧
      s3.audit = (emit cfg env "turn_end" (jsNumToString n) s).audit ∧
      s3.enabled = true ∧ s3.agentRepoInitialized = true ∧
      s3.patches = s.patches := by
  have h1 : (emit cfg env "turn_end" (jsNumToString n) s).enabled = true := by simp [hs]
  have h2 : (emit cfg env "turn_end" (jsNumToString n) s).agentRepoInitialized = true := by
    simp [hinit]
  obtain ⟨hb, hlen, haud, hen, hin, hpat⟩ :=
    gitCommitInternal_ok cfg env
      ("[" ++ cfg.agentName ++ ":turn-" ++ jsNumToString i ++ "] " ++
        (if n > 0 then jsNumToString n ++ " tools" else "no tools"))
      (emit cfg env "turn_end" (jsNumToString n) s) h2 hac hcc
  refine ⟨(gitCommitInternal cfg env
      ("[" ++ cfg.agentName ++ ":turn-" ++ jsNumToString i ++ "] " ++
        (if n > 0 then jsNumToString n ++ " tools" else "no tools"))
      (emit cfg env "turn_end" (jsNumToString n) s)).1, ?_, ?_, ?_, ?_, ?_, ?_⟩
  · simp only [step, hs, Bool.not_true, Bool.false_eq_true, if_false, gitCommit, h1]
  · rw [hlen]; simp
  · exact haud
  · rw [hen, h1]
  · rw [hin, h2]
  · rw [hpat]; simp

/-- C5: while the engine is disabled every lifecycle event completes with
no new audit entry, no new commit and no new patch file, and the engine
stays disabled; re-enabling via the control command appends the enabled
entry and, from then on, a turn end again appends an audit entry and
creates a commit. -/
theorem C5_disabled_suppresses_until_reenabled (cfg : Config) (env : Env) (s : St) (e : Event)
    (hs : s.enabled = false) (he : isLifecycle e = true) :
    (∃ s1, step cfg env s e = Except.ok s1 ∧ s1.audit = s.audit ∧
      s1.commits = s.commits ∧ s1.patches = s.patches ∧ s1.enabled = false) ∧
    (∀ env2 : Env, env2.auditOk = true →
      ∃ s2, step cfg env2 s (Event.cmdSetEnabled true) = Except.ok s2 ∧
        s2.enabled = true ∧
        s2.audit = s.audit ++ [⟨"enabled", cfg.agentName, s.currentTurn, ""⟩] ∧
        s2.commits = s.commits ∧
        (s.agentRepoInitialized = true → env2.addCode = 0 → env2.commitCode = 0 →
          ∀ i n, ∃ s3, step cfg env2 s2 (Event.turn_end i n) = Except.ok s3 ∧
            s3.commits.length = s.commits.length + 1 ∧
            s3.audit.length = s.audit.length + 2)) := by
  constructor
  · cases e with
    | session_start =>
      by_cases hk : env.killswitch = true
      · refine ⟨{ s with enabled := false }, ?_, rfl, rfl, rfl, rfl⟩
        simp [step, hk]
      · refine ⟨s, ?_, rfl, rfl, rfl, hs⟩
        simp [step, hk, hs]
    | session_shutdown => exact ⟨s, by simp [step, hs], rfl, rfl, rfl, hs⟩
    | agent_end m => exact ⟨s, by simp [step, hs], rfl, rfl, rfl, hs⟩
    | turn_start i =>
      refine ⟨{ s with currentTurn := i,
                       stats := { s.stats with turns := s.stats.turns + 1 } },
        ?_, rfl, rfl, rfl, hs⟩
      simp [step, hs]
    | turn_end i n => exact ⟨s, by simp [step, hs], rfl, rfl, rfl, hs⟩
    | tool_call t id =>
      refine ⟨{ s with toolCallCount := s.toolCallCount + 1,
                       stats := { s.stats with toolCalls := s.stats.toolCalls + 1 } },
        ?_, rfl, rfl, rfl, hs⟩
      simp [step, hs]
    | tool_result t id p err => exact ⟨s, by simp [step, hs], rfl, rfl, rfl, hs⟩
    | cmdSetEnabled b => simp [isLifecycle] at he
  · intro env2 ha2
    refine ⟨emit cfg env2 "enabled" "" { s with enabled := true }, ?_, ?_, ?_, ?_, ?_⟩
    · simp [step, setEnabled]
    · simp
    · rw [emit_audit_on cfg env2 "enabled" "" { s with enabled := true } (by simp) ha2]
    · simp
    · intro hinit hac hcc i n
      obtain ⟨s3, hstep, hlen, haud, _, _, _⟩ := step_turn_end_ok cfg env2
        (emit cfg env2 "enabled" "" { s with enabled := true }) i n
        (by simp) (by simp [hinit]) hac hcc
      refine ⟨s3, hstep, ?_, ?_⟩
      · rw [hlen]; simp
      · rw [haud, emit_audit_on _ _ _ _ _ (by simp) ha2,
          emit_audit_on cfg env2 "enabled" "" { s with enabled := true } (by simp) ha2]
        simp

/-- C5 witness: a concrete disabled tool call writes nothing, and
re-enabling then finishing a turn writes and commits again. -/
theorem C5_disabled_suppresses_until_reenabled_witness :
    (∃ s1, step cfgEx envOk { stW with enabled := false } (Event.tool_call "bash" "c9") =
        Except.ok s1 ∧
      s1.audit = ({ stW with enabled := false } : St).audit ∧
      s1.commits = ({ stW with enabled := false } : St).commits ∧
      s1.patches = ({ stW with enabled := false } : St).patches ∧
      s1.enabled = false) ∧
    (∀ env2 : Env, env2.auditOk = true →
      ∃ s2, step cfgEx env2 { stW with enabled := false } (Event.cmdSetEnabled true) =
          Except.ok s2 ∧
        s2.enabled = true ∧
        s2.audit = ({ stW with enabled := false } : St).audit ++
          [⟨"enabled", cfgEx.agentName, ({ stW with enabled := false } : St).currentTurn, ""⟩] ∧
        s2.commits = ({ stW with enabled := false } : St).commits ∧
        (({ stW with enabled := false } : St).agentRepoInitialized = true →
          env2.addCode = 0 → env2.commitCode = 0 →
          ∀ i n, ∃ s3, step cfgEx env2 s2 (Event.turn_end i n) = Except.ok s3 ∧
            s3.commits.length = ({ stW with enabled := false } : St).commits.length + 1 ∧
            s3.audit.length = ({ stW with enabled := false } : St).audit.length + 2)) :=
  C5_disabled_suppresses_until_reenabled cfgEx envOk { stW with enabled := false }
    (Event.tool_call "bash" "c9") (by decide) (by decide)

@[simp] theorem capturePatch_commits (cfg : Config) (env : Env) (repo p tool : String) (s : St) :
    (capturePatch cfg env repo p tool s).commits = s.commits := by
  unfold capturePatch
  repeat' split
  case _ => rfl
  all_goals simp [execd]

@[simp] theorem capturePatch_enabled (cfg : Config) (env : Env) (repo p tool : String) (s : St) :
    (capturePatch cfg env repo p tool s).enabled = s.enabled := by
  unfold capturePatch
  repeat' split
  case _ => rfl
  all_goals simp [execd]

@[simp] theorem capturePatch_agentRepoInitialized (cfg : Config) (env : Env)
    (repo p tool : String) (s : St) :
    (capturePatch cfg env repo p tool s).agentRepoInitialized = s.agentRepoInitialized := by
  unfold capturePatch
  repeat' split
  case _ => rfl
  all_goals simp [execd]

theorem countTurnEnds_cons (e : Event) (env : Env) (rest : List (Event × Env)) :
    countTurnEnds ((e, env) :: rest) =
      (if isTurnEndEvt e then 1 else 0) + countTurnEnds rest := by
  unfold countTurnEnds
  rw [List.filter_cons]
  split <;> simp_all <;> omega

/-- Every mid-session event keeps the engine enabled and the repository
initialized, returns normally, and adds a commit exactly when it is a turn
end. -/
theorem step_mid_ok (cfg : Config) (env : Env) (s : St) (e : Event)
    (hs : s.enabled = true) (hinit : s.agentRepoInitialized = true)
    (hok : midOk (e, env) = true) :
    ∃ s1, step cfg env s e = Except.ok s1 ∧ s1.enabled = true ∧
      s1.agentRepoInitialized = true ∧
      s1.commits.length = s.commits.length + (if isTurnEndEvt e then 1 else 0) := by
  cases e with
  | session_start => simp [midOk] at hok
  | cmdSetEnabled b => simp [midOk] at hok
  | session_shutdown =>
    refine ⟨emit cfg env "session_shutdown" "stats" s, ?_, ?_, ?_, ?_⟩ <;>
      simp [step, hs, hinit, isTurnEndEvt]
  | agent_end m =>
    refine ⟨emit cfg env "agent_end" (jsNumToString m) s, ?_, ?_, ?_, ?_⟩ <;>
      simp [step, hs, hinit, isTurnEndEvt]
  | turn_start i =>
    refine ⟨emit cfg env "turn_start" (jsNumToString i)
        { s with currentTurn := i,
                 stats := { s.stats with turns := s.stats.turns + 1 } },
      ?_, ?_, ?_, ?_⟩ <;>
      simp [step, hs, hinit, isTurnEndEvt]
  | turn_end i n =>
    obtain ⟨hac, hcc⟩ : env.addCode = 0 ∧ env.commitCode = 0 := by
      simpa [midOk] using hok
    obtain ⟨s3, hstep, hlen, _, hen, hin, _⟩ := step_turn_end_ok cfg env s i n hs hinit hac hcc
    exact ⟨s3, hstep, hen, hin, by simp [isTurnEndEvt, hlen]⟩
  | tool_call t id =>
    refine ⟨emit cfg env "tool_call" t
        { s with toolCallCount := s.toolCallCount + 1,
                 stats := { s.stats with toolCalls := s.stats.toolCalls + 1 } },
      ?_, ?_, ?_, ?_⟩ <;>
      simp [step, hs, hinit, isTurnEndEvt]
  | tool_result t id p err =>
    by_cases hw : (t == "write" || t == "edit") = true
    · cases p with
      | none => simp [midOk, hw] at hok
      | some pp =>
        cases htr : isTargetRepoPathStr cfg pp with
        | some repo =>
          refine ⟨capturePatch cfg env repo pp t (emit cfg env "tool_result" t s),
            ?_, ?_, ?_, ?_⟩ <;>
            simp [step, hs, hw, htr, hinit, isTurnEndEvt]
        | none =>
          refine ⟨emit cfg env "tool_result" t s, ?_, ?_, ?_, ?_⟩ <;>
            simp [step, hs, hw, htr, hinit, isTurnEndEvt]
    · refine ⟨emit cfg env "tool_result" t s, ?_, ?_, ?_, ?_⟩ <;>
        simp [step, hs, hw, hinit, isTurnEndEvt]

/-- Running any mid-session trace from an enabled, initialized state
succeeds and adds one commit per turn end. -/
theorem run_mid_ok (cfg : Config) :
    ∀ (tr : List (Event × Env)) (s : St), s.enabled = true →
      s.agentRepoInitialized = true → (∀ x ∈ tr, midOk x = true) →
      ∃ s2, run cfg s tr = Except.ok s2 ∧
        s2.commits.length = s.commits.length + countTurnEnds tr := by
  intro tr
  induction tr with
  | nil =>
    intro s hs hi _
    exact ⟨s, rfl, by simp [countTurnEnds]⟩
  | cons x rest ih =>
    intro s hs hi hall
    obtain ⟨e, env⟩ := x
    obtain ⟨s1, hstep, h1, h2, h3⟩ :=
      step_mid_ok cfg env s e hs hi (hall _ (List.mem_cons_self _ _))
    obtain ⟨s2, hrun, hlen⟩ := ih s1 h1 h2 (fun y hy => hall y (List.mem_cons_of_mem _ hy))
    refine ⟨s2, ?_, ?_⟩
    · simp [run, hstep, hrun]
    · rw [hlen, h3, countTurnEnds_cons]
      split <;> omega

/-- Fresh session start with healthy git: the handler returns normally,
the engine ends enabled with the repository initialized, and exactly the
two commits — agent initialized and session began — exist. -/
theorem step_session_start_fresh (cfg : Config) (env : Env)
    (hk : env.killswitch = false) (hd : env.gitDirExists = false)
    (hic : env.initCode = 0) (hgi : env.gitignoreOk = true) (hicc : env.initCommitCode = 0)
    (hac : env.addCode = 0) (hcc : env.commitCode = 0) :
    ∃ s1, step cfg env (St.init true) Event.session_start = Except.ok s1 ∧
      s1.enabled = true ∧ s1.agentRepoInitialized = true ∧ s1.commits.length = 2 := by
  have hIen : (initAgentRepo cfg env (St.init true)).1.enabled = true := by
    simp [initAgentRepo, hd, hic, hgi, hicc, execd, St.init]
  have hIinit : (initAgentRepo cfg env (St.init true)).1.agentRepoInitialized = true := by
    simp [initAgentRepo, hd, hic, hgi, hicc, execd, St.init]
  have hIcom : (initAgentRepo cfg env (St.init true)).1.commits = ["agent initialized"] := by
    simp [initAgentRepo, hd, hic, hgi, hicc, execd, St.init]
  have hAen : (emit cfg env "session_start" "" (initAgentRepo cfg env (St.init true)).1).enabled
      = true := by simp [hIen]
  have hAinit : (emit cfg env "session_start" ""
      (initAgentRepo cfg env (St.init true)).1).agentRepoInitialized = true := by
    simp [hIinit]
  have hAcom : (emit cfg env "session_start" "" (initAgentRepo cfg env (St.init true)).1).commits
      = ["agent initialized"] := by simp [hIcom]
  obtain ⟨hb2, hlen2, _, hen2, hin2, _⟩ :=
    gitCommitInternal_ok cfg env ("[" ++ cfg.agentName ++ ":start] session began")
      (emit cfg env "session_start" "" (initAgentRepo cfg env (St.init true)).1) hAinit hac hcc
  refine ⟨(gitCommitInternal cfg env ("[" ++ cfg.agentName ++ ":start] session began")
      (emit cfg env "session_start" "" (initAgentRepo cfg env (St.init true)).1)).1,
    ?_, ?_, ?_, ?_⟩
  · simp only [step, hk, Bool.false_eq_true, if_false, St.init_enabled, Bool.not_true,
      gitCommit, hAen]
  · rw [hen2, hAen]
  · rw [hin2, hAinit]
  · rw [hlen2, hAcom]
    rfl

/-- C1: a session that freshly initializes its checkpoint repository and
then handles any mid-session trace — arbitrarily many tool calls and tool
results, with every turn end finding the engine enabled and healthy git
subprocesses — ends with exactly (number of turn ends) + 2 commits: the
agent-initialized commit, the session-start commit, and one commit per
turn boundary, independent of the tool-call volume. -/
theorem C1_turn_boundary_commit_count (cfg : Config) (env0 : Env) (tr : List (Event × Env))
    (hk : env0.killswitch = false) (hd : env0.gitDirExists = false)
    (hic : env0.initCode = 0) (hgi : env0.gitignoreOk = true)
    (hicc : env0.initCommitCode = 0) (hac : env0.addCode = 0) (hcc : env0.commitCode = 0)
    (htr : ∀ x ∈ tr, midOk x = true) :
    ∃ s2, run cfg (St.init true) ((Event.session_start, env0) :: tr) = Except.ok s2 ∧
      s2.commits.length = countTurnEnds tr + 2 := by
  obtain ⟨s1, hstep, hen, hin, hcom⟩ :=
    step_session_start_fresh cfg env0 hk hd hic hgi hicc hac hcc
  obtain ⟨s2, hrun, hlen⟩ := run_mid_ok cfg tr s1 hen hin htr
  refine ⟨s2, ?_, ?_⟩
  · simp [run, hstep, hrun]
  · rw [hlen, hcom]
    omega

/-- C1 witness: the concrete two-turn session ends with 2 + 2 commits. -/
theorem C1_turn_boundary_commit_count_witness :
    ∃ s2, run cfgEx (St.init true) ((Event.session_start, envOk) :: trC1) = Except.ok s2 ∧
      s2.commits.length = countTurnEnds trC1 + 2 :=
  C1_turn_boundary_commit_count cfgEx envOk trC1 (by decide) (by decide) (by decide)
    (by decide) (by decide) (by decide) (by decide) (by decide)

